import Mathlib

/-!
Verification of the Technical Indicator & Composite Scoring Engine of the
`mcp-global-intelligence` repository.

The engine lives in two near-duplicate JavaScript variants:
the simplified engine (`CryptoGodEngine` in the unnamed server file,
modelled here in the root namespace and the `Engine` namespace) and the
gateway variant (`mcp-gateway.js`, modelled in the `Gateway` namespace
where it differs).  JavaScript numbers are modelled exactly by `ℚ`
(and by `ℝ` where the source takes a square root); prices are finite
rationals.  Out-of-range JavaScript array reads appear only at positions
the loops keep in bounds, so `List.getD` with default `0` is used for
indexing.
-/

/-- Successive price changes: `changes[i] = prices[i+1] - prices[i]`
(the loop at the top of `calculateRSI`). -/
def priceChanges (prices : List ℚ) : List ℚ :=
  (List.range (prices.length - 1)).map fun i => prices.getD (i + 1) 0 - prices.getD i 0

/-- Source `calculateSMA(prices, period)`: for every window start `k`
(source loop index `i = k + period - 1`), the mean of
`prices.slice(k, k + period)`. -/
def calculateSMA (prices : List ℚ) (period : ℕ) : List ℚ :=
  (List.range (prices.length + 1 - period)).map fun k =>
    ((prices.drop k).take period).sum / period

/-- The window `changes.slice(i - period, i)` of the `calculateRSI` loop. -/
def rsiWindow (changes : List ℚ) (period i : ℕ) : List ℚ :=
  (changes.drop (i - period)).take period

/-- Source `gains`: the positive changes of the window. -/
def rsiGains (changes : List ℚ) (period i : ℕ) : List ℚ :=
  (rsiWindow changes period i).filter fun c => 0 < c

/-- Source `losses`: the absolute values of the negative changes of the window. -/
def rsiLosses (changes : List ℚ) (period i : ℕ) : List ℚ :=
  ((rsiWindow changes period i).filter fun c => c < 0).map fun c => |c|

/-- Source `avgGain = gains.length > 0 ? gains.reduce(+) / period : 0`. -/
def rsiAvgGain (changes : List ℚ) (period i : ℕ) : ℚ :=
  if (rsiGains changes period i).length > 0 then (rsiGains changes period i).sum / period else 0

/-- Source `avgLoss = losses.length > 0 ? losses.reduce(+) / period : 0`. -/
def rsiAvgLoss (changes : List ℚ) (period i : ℕ) : ℚ :=
  if (rsiLosses changes period i).length > 0 then (rsiLosses changes period i).sum / period else 0

/-- Source `rs = avgLoss === 0 ? 100 : avgGain / avgLoss` — the source substitutes
the constant 100 for RS when the window has no loss. -/
def rsiRS (changes : List ℚ) (period i : ℕ) : ℚ :=
  if rsiAvgLoss changes period i = 0 then 100
  else rsiAvgGain changes period i / rsiAvgLoss changes period i

/-- The value pushed by the `calculateRSI` loop: `rsi = 100 - 100 / (1 + rs)`. -/
def rsiBody (changes : List ℚ) (period i : ℕ) : ℚ :=
  100 - 100 / (1 + rsiRS changes period i)

/-- Source `calculateRSI(prices, period)`: one value per source loop index
`i = period .. changes.length - 1`. -/
def calculateRSI (prices : List ℚ) (period : ℕ) : List ℚ :=
  (List.range' period ((priceChanges prices).length - period)).map fun i =>
    rsiBody (priceChanges prices) period i

/-- The `type` tag of a detected level (source strings `'support'` / `'resistance'`). -/
inductive LevelType
  | support
  | resistance
deriving DecidableEq

/-- A detected level object `{ type, price, strength }`. -/
structure Level where
  type : LevelType
  price : ℚ
  strength : String
deriving DecidableEq

/-- The index sequence `j = i - lookback .. i + lookback` walked by each inner
loop of the simplified engine's `calculateSupportResistance`. -/
def scanIdxs (i lookback : ℕ) : List ℕ :=
  List.range' (i - lookback) (i + lookback + 1 - (i - lookback))

/-- The support inner loop of `calculateSupportResistance`: walk the indices,
`break` as soon as `j !== i && prices[j] <= current`, and report a push if the
iteration `j === i + lookback` is reached and survives the break test. -/
def scanGoSupport (prices : List ℚ) (i lookback : ℕ) : List ℕ → Bool
  | [] => false
  | j :: rest =>
    if j ≠ i ∧ prices.getD j 0 ≤ prices.getD i 0 then false
    else if j = i + lookback then true
    else scanGoSupport prices i lookback rest

/-- The resistance inner loop: `break` on `j !== i && prices[j] >= current`. -/
def scanGoResistance (prices : List ℚ) (i lookback : ℕ) : List ℕ → Bool
  | [] => false
  | j :: rest =>
    if j ≠ i ∧ prices.getD i 0 ≤ prices.getD j 0 then false
    else if j = i + lookback then true
    else scanGoResistance prices i lookback rest

/-- Whether the simplified engine pushes a support level at scan centre `i`. -/
def supportScan (prices : List ℚ) (lookback i : ℕ) : Bool :=
  scanGoSupport prices i lookback (scanIdxs i lookback)

/-- Whether the simplified engine pushes a resistance level at scan centre `i`. -/
def resistanceScan (prices : List ℚ) (lookback i : ℕ) : Bool :=
  scanGoResistance prices i lookback (scanIdxs i lookback)

/-- Source `levels.slice(-10)`: the last ten detected levels. -/
def lastTen {α : Type} (l : List α) : List α := l.drop (l.length - 10)

/-- Source `calculateSupportResistance(prices)` of the simplified engine:
scan centres `i = 10 .. prices.length - 11` with `lookback = 10`, push a
support and then a resistance level when the corresponding inner loop
reports one, and return the last ten levels. -/
def calculateSupportResistance (prices : List ℚ) : List Level :=
  lastTen ((List.range' 10 (prices.length - 20)).flatMap fun i =>
    (if supportScan prices 10 i then [⟨LevelType.support, prices.getD i 0, "medium"⟩] else []) ++
    (if resistanceScan prices 10 i then [⟨LevelType.resistance, prices.getD i 0, "medium"⟩] else []))

namespace Gateway

/-- The gateway variant's support test at centre `i`: at most two points of
`prices.slice(i - lookback, i + lookback)` are strictly below `prices[i]`. -/
def isSupportAt (prices : List ℚ) (lookback i : ℕ) : Bool :=
  decide ((((prices.drop (i - lookback)).take (i + lookback - (i - lookback))).filter
    (fun p => p < prices.getD i 0)).length ≤ 2)

/-- The gateway variant's resistance test at centre `i`: at most two points of
the same slice are strictly above `prices[i]`. -/
def isResistanceAt (prices : List ℚ) (lookback i : ℕ) : Bool :=
  decide ((((prices.drop (i - lookback)).take (i + lookback - (i - lookback))).filter
    (fun p => prices.getD i 0 < p)).length ≤ 2)

/-- Source `calculateSupportResistance(prices)` of `mcp-gateway.js`: centres
`i = 20 .. prices.length - 21` with `lookback = 20`, count-based tests,
last ten levels returned. -/
def calculateSupportResistance (prices : List ℚ) : List Level :=
  lastTen ((List.range' 20 (prices.length - 40)).flatMap fun i =>
    (if isSupportAt prices 20 i then [⟨LevelType.support, prices.getD i 0, "medium"⟩] else []) ++
    (if isResistanceAt prices 20 i then [⟨LevelType.resistance, prices.getD i 0, "medium"⟩] else []))

end Gateway

/-- A Bollinger band triple `{ upper, middle, lower }`. -/
structure Band where
  upper : ℝ
  middle : ℝ
  lower : ℝ

/-- The window `prices.slice(dataIndex - period + 1, dataIndex + 1)` of the
`calculateBollingerBands` loop, written with the window start `i`
(source `dataIndex = i + period - 1`). -/
def windowAt (prices : List ℚ) (period i : ℕ) : List ℚ := (prices.drop i).take period

/-- Source `mean = sma[i]` inside the `calculateBollingerBands` loop. -/
def smaAt (prices : List ℚ) (period i : ℕ) : ℚ := (calculateSMA prices period).getD i 0

/-- The population variance of the window around `mean = sma[i]`. -/
def varianceAt (prices : List ℚ) (period i : ℕ) : ℚ :=
  ((windowAt prices period i).map fun p => (p - smaAt prices period i) ^ 2).sum / period

/-- Source `stdDev = Math.sqrt(variance)` of the window at position `i`. -/
noncomputable def stdDevAt (prices : List ℚ) (period i : ℕ) : ℝ :=
  Real.sqrt (varianceAt prices period i)

/-- Source `calculateBollingerBands(prices, period, multiplier)`: one band per SMA
position, `upper = mean + stdDev * multiplier`, `middle = mean`,
`lower = mean - stdDev * multiplier`. -/
noncomputable def calculateBollingerBands (prices : List ℚ) (period : ℕ) (multiplier : ℚ) :
    List Band :=
  (List.range (calculateSMA prices period).length).map fun i =>
    { upper := (smaAt prices period i : ℝ) + stdDevAt prices period i * (multiplier : ℝ)
      middle := (smaAt prices period i : ℝ)
      lower := (smaAt prices period i : ℝ) - stdDevAt prices period i * (multiplier : ℝ) }

/-- Period-over-period returns of `calculateVolatility`. -/
def returnsOf (prices : List ℚ) : List ℚ :=
  (List.range (prices.length - 1)).map fun i =>
    (prices.getD (i + 1) 0 - prices.getD i 0) / prices.getD i 0

/-- The variance of the returns around their mean (`calculateVolatility`). -/
def returnsVariance (prices : List ℚ) : ℚ :=
  ((returnsOf prices).map fun r =>
    (r - (returnsOf prices).sum / (returnsOf prices).length) ^ 2).sum / (returnsOf prices).length

/-- Source `calculateVolatility(prices) = Math.sqrt(variance) * 100`. -/
noncomputable def calculateVolatility (prices : List ℚ) : ℝ :=
  Real.sqrt (returnsVariance prices) * 100

/-- The technicals object assembled by `calculateSimpleTechnicals`.
`sma_20`, `sma_50` and `rsi` are the last entries of the respective series
(`undefined`, i.e. `none`, when the series is empty), mirroring
`xs[xs.length - 1]`. -/
structure Technicals where
  sma_20 : Option ℚ
  sma_50 : Option ℚ
  rsi : Option ℚ
  bollinger_bands : Option Band
  support_resistance : List Level
  price_change_24h : ℚ
  volatility : ℝ

/-- Source `calculateSimpleTechnicals(prices)` on `[timestamp, price]` pairs:
`null` (here `none`) when fewer than 20 close prices, else the assembled
technicals object. -/
noncomputable def calculateSimpleTechnicals (prices : List (ℚ × ℚ)) : Option Technicals :=
  let closePrices := prices.map Prod.snd
  if closePrices.length < 20 then none
  else some
    { sma_20 := (calculateSMA closePrices 20).getLast?
      sma_50 := (calculateSMA closePrices 50).getLast?
      rsi := (calculateRSI closePrices 14).getLast?
      bollinger_bands := (calculateBollingerBands closePrices 20 2).getLast?
      support_resistance := calculateSupportResistance closePrices
      price_change_24h := (closePrices.getD (closePrices.length - 1) 0 -
        closePrices.getD (closePrices.length - 2) 0) /
        closePrices.getD (closePrices.length - 2) 0 * 100
      volatility := calculateVolatility closePrices }

/-- The weight record hardcoded at the top of `generateGodPrediction`. -/
structure Weights where
  technical : ℚ
  fundamental : ℚ
  sentiment : ℚ
  market_structure : ℚ
deriving DecidableEq

/-- Source `const weights = { technical: 0.4, fundamental: 0.3, sentiment: 0.2,
market_structure: 0.1 }` — a fixed constant, not a parameter. -/
def cgWeights : Weights :=
  { technical := 0.4, fundamental := 0.3, sentiment := 0.2, market_structure := 0.1 }

/-- The slice of the sentiment object read by the scorer. -/
structure Sentiment where
  score : ℚ

/-- The slice of the market-structure object read by the scorer. -/
structure MarketStructure where
  liquidityScore : ℚ
  institutionalInterest : String

/-- The technical sub-score: `technicals && technicals.rsi` is the JavaScript
truthiness test (`null`/`undefined`/`0` are falsy), then the RSI thresholds. -/
def technicalScore : Option Technicals → ℚ
  | none => 0.5
  | some t =>
    match t.rsi with
    | none => 0.5
    | some r => if r = 0 then 0.5 else if r < 30 then 0.8 else if r > 70 then 0.2 else 0.5

/-- The fundamental sub-score from the liquidity ratio. -/
def fundamentalScore (m : MarketStructure) : ℚ :=
  if m.liquidityScore > 0.1 then 0.7 else 0.4

/-- The sentiment sub-score from the sign of the sentiment score. -/
def sentimentScore (s : Sentiment) : ℚ :=
  if s.score > 0 then 0.7 else 0.3

/-- The market-structure sub-score from the institutional-interest label. -/
def structureScore (m : MarketStructure) : ℚ :=
  if m.institutionalInterest = "high" then 0.8 else 0.5

/-- Source `finalScore`, the weighted sum computed inside `generateGodPrediction`. -/
def finalScore (technicals : Option Technicals) (sentiment : Sentiment)
    (marketStructure : MarketStructure) : ℚ :=
  technicalScore technicals * cgWeights.technical +
  fundamentalScore marketStructure * cgWeights.fundamental +
  sentimentScore sentiment * cgWeights.sentiment +
  structureScore marketStructure * cgWeights.market_structure

/-- The prediction object. The scoring fields (`direction`, `confidence`,
`timeframe`, `risk_level`) are modelled; the `price_targets` pass-through of
the latest Bollinger bounds is not read by any verified property. -/
structure Prediction where
  direction : String
  confidence : ℚ
  timeframe : String
  risk_level : String
deriving DecidableEq

/-- Source `generateGodPrediction(technicals, fundamentals, sentiment,
marketStructure)`.  The `fundamentals` argument is accepted and never read,
exactly as in the source.  There is no weight parameter and no validation or
error path: the function is total. -/
def generateGodPrediction (technicals : Option Technicals) (fundamentals : Unit)
    (sentiment : Sentiment) (marketStructure : MarketStructure) : Prediction :=
  { direction :=
      if finalScore technicals sentiment marketStructure > 0.6 then "BULLISH"
      else if finalScore technicals sentiment marketStructure < 0.4 then "BEARISH"
      else "NEUTRAL"
    confidence := |finalScore technicals sentiment marketStructure - 0.5| * 200
    timeframe := "24h-7d"
    risk_level :=
      if finalScore technicals sentiment marketStructure > 0.7 ∨
          finalScore technicals sentiment marketStructure < 0.3 then "HIGH"
      else "MEDIUM" }

/-- The technical sub-score only ever takes the three source values. -/
theorem technicalScore_cases (t : Option Technicals) :
    technicalScore t = 0.2 ∨ technicalScore t = 0.5 ∨ technicalScore t = 0.8 := by
  rcases t with _ | t
  · norm_num [technicalScore]
  · rcases hr : t.rsi with _ | r
    · norm_num [technicalScore, hr]
    · simp only [technicalScore, hr]
      split_ifs <;> norm_num

/-- The fundamental sub-score only ever takes the two source values. -/
theorem fundamentalScore_cases (m : MarketStructure) :
    fundamentalScore m = 0.7 ∨ fundamentalScore m = 0.4 := by
  unfold fundamentalScore
  split_ifs
  · exact Or.inl rfl
  · exact Or.inr rfl

/-- The sentiment sub-score only ever takes the two source values. -/
theorem sentimentScore_cases (s : Sentiment) :
    sentimentScore s = 0.7 ∨ sentimentScore s = 0.3 := by
  unfold sentimentScore
  split_ifs
  · exact Or.inl rfl
  · exact Or.inr rfl

/-- The market-structure sub-score only ever takes the two source values. -/
theorem structureScore_cases (m : MarketStructure) :
    structureScore m = 0.8 ∨ structureScore m = 0.5 := by
  unfold structureScore
  split_ifs
  · exact Or.inl rfl
  · exact Or.inr rfl

/-- The weighted final score always lies in `[0.31, 0.75]`. -/
theorem finalScore_bounds (t : Option Technicals) (s : Sentiment) (m : MarketStructure) :
    31/100 ≤ finalScore t s m ∧ finalScore t s m ≤ 3/4 := by
  have ht := technicalScore_cases t
  have hf := fundamentalScore_cases m
  have hs := sentimentScore_cases s
  have hm := structureScore_cases m
  unfold finalScore
  rcases ht with h1 | h1 | h1 <;> rcases hf with h2 | h2 <;> rcases hs with h3 | h3 <;>
    rcases hm with h4 | h4 <;> rw [h1, h2, h3, h4] <;> norm_num [cgWeights]

/-- The support inner loop over `range' a (n + 1)` ending at `i + lookback`
reports a push exactly when every walked index other than `i` carries a price
strictly above `prices[i]`. -/
theorem scanGoSupport_range' (prices : List ℚ) (i lookback : ℕ) :
    ∀ n a, a + (n + 1) = i + lookback + 1 →
      (scanGoSupport prices i lookback (List.range' a (n + 1)) = true ↔
        ∀ j, a ≤ j → j ≤ i + lookback → j ≠ i → prices.getD i 0 < prices.getD j 0) := by
  intro n
  induction n with
  | zero =>
    intro a ha
    have haeq : a = i + lookback := by omega
    subst haeq
    rw [List.range'_succ]
    show scanGoSupport prices i lookback [i + lookback] = true ↔ _
    rw [scanGoSupport]
    by_cases hbreak : i + lookback ≠ i ∧
        prices.getD (i + lookback) 0 ≤ prices.getD i 0
    · rw [if_pos hbreak]
      refine ⟨fun h => absurd h (by decide), fun hall => ?_⟩
      exact absurd (hall (i + lookback) le_rfl le_rfl hbreak.1) (not_lt.mpr hbreak.2)
    · rw [if_neg hbreak, if_pos rfl]
      push_neg at hbreak
      refine ⟨fun _ j hj1 hj2 hj3 => ?_, fun _ => rfl⟩
      have hj : j = i + lookback := le_antisymm hj2 hj1
      subst hj
      exact hbreak hj3
  | succ k ih =>
    intro a ha
    have hlt : a < i + lookback := by omega
    rw [List.range'_succ]
    rw [scanGoSupport]
    by_cases hbreak : a ≠ i ∧ prices.getD a 0 ≤ prices.getD i 0
    · rw [if_pos hbreak]
      refine ⟨fun h => absurd h (by decide), fun hall => ?_⟩
      exact absurd (hall a le_rfl hlt.le hbreak.1) (not_lt.mpr hbreak.2)
    · rw [if_neg hbreak, if_neg (by omega : ¬ a = i + lookback)]
      rw [ih (a + 1) (by omega)]
      push_neg at hbreak
      constructor
      · intro h j haj hju hji
        rcases Nat.eq_or_lt_of_le haj with rfl | hlt2
        · exact hbreak hji
        · exact h j (by omega) hju hji
      · intro h j haj hju hji
        exact h j (by omega) hju hji

/-- The resistance inner loop over `range' a (n + 1)` ending at `i + lookback`
reports a push exactly when every walked index other than `i` carries a price
strictly below `prices[i]`. -/
theorem scanGoResistance_range' (prices : List ℚ) (i lookback : ℕ) :
    ∀ n a, a + (n + 1) = i + lookback + 1 →
      (scanGoResistance prices i lookback (List.range' a (n + 1)) = true ↔
        ∀ j, a ≤ j → j ≤ i + lookback → j ≠ i → prices.getD j 0 < prices.getD i 0) := by
  intro n
  induction n with
  | zero =>
    intro a ha
    have haeq : a = i + lookback := by omega
    subst haeq
    rw [List.range'_succ]
    show scanGoResistance prices i lookback [i + lookback] = true ↔ _
    rw [scanGoResistance]
    by_cases hbreak : i + lookback ≠ i ∧
        prices.getD i 0 ≤ prices.getD (i + lookback) 0
    · rw [if_pos hbreak]
      refine ⟨fun h => absurd h (by decide), fun hall => ?_⟩
      exact absurd (hall (i + lookback) le_rfl le_rfl hbreak.1) (not_lt.mpr hbreak.2)
    · rw [if_neg hbreak, if_pos rfl]
      push_neg at hbreak
      refine ⟨fun _ j hj1 hj2 hj3 => ?_, fun _ => rfl⟩
      have hj : j = i + lookback := le_antisymm hj2 hj1
      subst hj
      exact hbreak hj3
  | succ k ih =>
    intro a ha
    have hlt : a < i + lookback := by omega
    rw [List.range'_succ]
    rw [scanGoResistance]
    by_cases hbreak : a ≠ i ∧ prices.getD i 0 ≤ prices.getD a 0
    · rw [if_pos hbreak]
      refine ⟨fun h => absurd h (by decide), fun hall => ?_⟩
      exact absurd (hall a le_rfl hlt.le hbreak.1) (not_lt.mpr hbreak.2)
    · rw [if_neg hbreak, if_neg (by omega : ¬ a = i + lookback)]
      rw [ih (a + 1) (by omega)]
      push_neg at hbreak
      constructor
      · intro h j haj hju hji
        rcases Nat.eq_or_lt_of_le haj with rfl | hlt2
        · exact hbreak hji
        · exact h j (by omega) hju hji
      · intro h j haj hju hji
        exact h j (by omega) hju hji

/-- The simplified engine pushes a support level at centre `i` exactly when
`prices[i]` is the strict minimum of the window `[i - lookback, i + lookback]`. -/
theorem supportScan_iff (prices : List ℚ) (lookback i : ℕ) (h : lookback ≤ i) :
    supportScan prices lookback i = true ↔
      ∀ j, i - lookback ≤ j → j ≤ i + lookback → j ≠ i →
        prices.getD i 0 < prices.getD j 0 := by
  unfold supportScan scanIdxs
  rw [show i + lookback + 1 - (i - lookback) = 2 * lookback + 1 by omega]
  exact scanGoSupport_range' prices i lookback (2 * lookback) (i - lookback) (by omega)

/-- The simplified engine pushes a resistance level at centre `i` exactly when
`prices[i]` is the strict maximum of the window `[i - lookback, i + lookback]`. -/
theorem resistanceScan_iff (prices : List ℚ) (lookback i : ℕ) (h : lookback ≤ i) :
    resistanceScan prices lookback i = true ↔
      ∀ j, i - lookback ≤ j → j ≤ i + lookback → j ≠ i →
        prices.getD j 0 < prices.getD i 0 := by
  unfold resistanceScan scanIdxs
  rw [show i + lookback + 1 - (i - lookback) = 2 * lookback + 1 by omega]
  exact scanGoResistance_range' prices i lookback (2 * lookback) (i - lookback) (by omega)

/-- C4 (amended): in the simplified engine, a support level is pushed at
centre `i` (with `r ≤ i < n - r`) exactly when `prices[i]` is the strict
minimum of the symmetric window `[i - r, i + r]`, and a resistance level
exactly when it is the strict maximum.  (The gateway variant does not obey
this rule; see the counterexample.) -/
theorem c4_strict_extrema_detection (prices : List ℚ) (r i : ℕ)
    (h1 : r ≤ i) (h2 : i + r < prices.length) :
    (supportScan prices r i = true ↔
      ∀ j, i - r ≤ j → j ≤ i + r → j ≠ i → prices.getD i 0 < prices.getD j 0)
  ∧ (resistanceScan prices r i = true ↔
      ∀ j, i - r ≤ j → j ≤ i + r → j ≠ i → prices.getD j 0 < prices.getD i 0) :=
  ⟨supportScan_iff prices r i h1, resistanceScan_iff prices r i h1⟩

/-- Witness for the amended C4 statement at a concrete series. -/
theorem c4_strict_extrema_detection_witness :
    (supportScan [5, 3, 7] 1 1 = true ↔
      ∀ j, 1 - 1 ≤ j → j ≤ 1 + 1 → j ≠ 1 →
        ([5, 3, 7] : List ℚ).getD 1 0 < ([5, 3, 7] : List ℚ).getD j 0)
  ∧ (resistanceScan [5, 3, 7] 1 1 = true ↔
      ∀ j, 1 - 1 ≤ j → j ≤ 1 + 1 → j ≠ 1 →
        ([5, 3, 7] : List ℚ).getD j 0 < ([5, 3, 7] : List ℚ).getD 1 0) :=
  c4_strict_extrema_detection [5, 3, 7] 1 1 (by decide) (by decide)

/-- The 41-point series `4, 5, 5, …, 5` used against the gateway detector. -/
def gwPrices : List ℚ := 4 :: List.replicate 40 5

/-- C4 counterexample: on `gwPrices` the gateway detector emits a support
level at centre `i = 20` (and a resistance level as well), although
`prices[0] = 4 < 5 = prices[20]` lies inside the window `[i - 20, i + 20]`,
so `prices[20]` is not the strict minimum of its symmetric window. -/
theorem c4_counterexample_gateway :
    Gateway.isSupportAt gwPrices 20 20 = true
  ∧ Gateway.calculateSupportResistance gwPrices =
      [⟨LevelType.support, 5, "medium"⟩, ⟨LevelType.resistance, 5, "medium"⟩]
  ∧ gwPrices.getD 0 0 < gwPrices.getD 20 0
  ∧ 20 - 20 ≤ (0 : ℕ) ∧ (0 : ℕ) ≤ 20 + 20 := by decide

/-- The 22-point series with a tied minimum at indices 10 and 11. -/
def tiePrices : List ℚ :=
  [5, 5, 5, 5, 5, 5, 5, 5, 5, 5, 0, 0, 5, 5, 5, 5, 5, 5, 5, 5, 5, 5]

/-- C8 counterexample: indices 10 and 11 tie for the minimum value of the
whole series (hence of every scan window containing them), yet the
first-encountered centre 10 does not qualify — no level at all is emitted. -/
theorem c8_counterexample_tie :
    tiePrices.getD 10 0 = tiePrices.getD 11 0
  ∧ (10 : ℕ) ≠ 11
  ∧ (∀ j, j < tiePrices.length → tiePrices.getD 10 0 ≤ tiePrices.getD j 0)
  ∧ supportScan tiePrices 10 10 = false
  ∧ supportScan tiePrices 10 11 = false
  ∧ calculateSupportResistance tiePrices = [] := by decide

/-- C8 (amended): the detector is deterministic — two runs on the identical
series return identical level lists — but a tie for a window's extreme value
is resolved by excluding every tied index: whenever some other index of the
window carries the same price as the centre, neither a support nor a
resistance level is pushed at that centre. -/
theorem c8_determinism_and_tie_exclusion (prices : List ℚ) (r i j : ℕ)
    (hr : r ≤ i) (hne : j ≠ i) (hjl : i - r ≤ j) (hju : j ≤ i + r)
    (heq : prices.getD j 0 = prices.getD i 0) :
    calculateSupportResistance prices = calculateSupportResistance prices
  ∧ supportScan prices r i = false
  ∧ resistanceScan prices r i = false := by
  refine ⟨rfl, ?_, ?_⟩
  · have hnot : ¬ supportScan prices r i = true := by
      rw [supportScan_iff prices r i hr]
      intro hall
      have hlt := hall j hjl hju hne
      rw [heq] at hlt
      exact lt_irrefl _ hlt
    exact Bool.eq_false_iff.mpr hnot
  · have hnot : ¬ resistanceScan prices r i = true := by
      rw [resistanceScan_iff prices r i hr]
      intro hall
      have hlt := hall j hjl hju hne
      rw [heq] at hlt
      exact lt_irrefl _ hlt
    exact Bool.eq_false_iff.mpr hnot

/-- Witness for the amended C8 statement at a concrete tied series. -/
theorem c8_determinism_and_tie_exclusion_witness :
    calculateSupportResistance [5, 0, 0, 5] = calculateSupportResistance [5, 0, 0, 5]
  ∧ supportScan [5, 0, 0, 5] 1 1 = false
  ∧ resistanceScan [5, 0, 0, 5] 1 1 = false :=
  c8_determinism_and_tie_exclusion [5, 0, 0, 5] 1 1 2
    (by decide) (by decide) (by decide) (by decide) (by decide)

/-- C2: for every combination of sub-score inputs, `generateGodPrediction`
returns direction `BULLISH` exactly when the weighted final score exceeds
0.6 and `BEARISH` exactly when it is below 0.4 (`NEUTRAL` otherwise); its
confidence equals `|score - 0.5| * 200` and lies in `[0, 100]`; and its risk
level is `HIGH` exactly when the score exceeds 0.7 or is below 0.3. -/
theorem c2_prediction_output_mapping (t : Option Technicals) (u : Unit) (s : Sentiment)
    (m : MarketStructure) :
    ((generateGodPrediction t u s m).direction = "BULLISH" ↔ 0.6 < finalScore t s m)
  ∧ ((generateGodPrediction t u s m).direction = "BEARISH" ↔ finalScore t s m < 0.4)
  ∧ ((generateGodPrediction t u s m).direction = "NEUTRAL" ↔
      0.4 ≤ finalScore t s m ∧ finalScore t s m ≤ 0.6)
  ∧ (generateGodPrediction t u s m).confidence = |finalScore t s m - 0.5| * 200
  ∧ 0 ≤ (generateGodPrediction t u s m).confidence
  ∧ (generateGodPrediction t u s m).confidence ≤ 100
  ∧ ((generateGodPrediction t u s m).risk_level = "HIGH" ↔
      (0.7 < finalScore t s m ∨ finalScore t s m < 0.3)) := by
  obtain ⟨hlo, hhi⟩ := finalScore_bounds t s m
  have habs : |finalScore t s m - 0.5| ≤ 1/2 := by
    rw [abs_le]
    constructor <;> norm_num <;> linarith
  refine ⟨?_, ?_, ?_, rfl, ?_, ?_, ?_⟩
  · show (if 0.6 < finalScore t s m then "BULLISH"
      else if finalScore t s m < 0.4 then "BEARISH" else "NEUTRAL") = "BULLISH" ↔ _
    split_ifs with h1 h2
    · exact iff_of_true rfl h1
    · exact iff_of_false (by decide) h1
    · exact iff_of_false (by decide) h1
  · show (if 0.6 < finalScore t s m then "BULLISH"
      else if finalScore t s m < 0.4 then "BEARISH" else "NEUTRAL") = "BEARISH" ↔ _
    split_ifs with h1 h2
    · exact iff_of_false (by decide) (by linarith)
    · exact iff_of_true rfl h2
    · exact iff_of_false (by decide) h2
  · show (if 0.6 < finalScore t s m then "BULLISH"
      else if finalScore t s m < 0.4 then "BEARISH" else "NEUTRAL") = "NEUTRAL" ↔ _
    split_ifs with h1 h2
    · refine iff_of_false (by decide) ?_
      intro hc
      linarith [hc.2]
    · refine iff_of_false (by decide) ?_
      intro hc
      linarith [hc.1]
    · exact iff_of_true rfl ⟨by linarith, by linarith⟩
  · show 0 ≤ |finalScore t s m - 0.5| * 200
    positivity
  · show |finalScore t s m - 0.5| * 200 ≤ 100
    nlinarith [habs]
  · show (if 0.7 < finalScore t s m ∨ finalScore t s m < 0.3 then "HIGH" else "MEDIUM")
      = "HIGH" ↔ _
    split_ifs with h1
    · exact iff_of_true rfl h1
    · exact iff_of_false (by decide) h1

/-- C9: the weighted final score always lies in `[0.31, 0.75]`, hence the
confidence never exceeds 50, the risk level is always `HIGH` or `MEDIUM`
(never `LOW`), and the `score < 0.3` disjunct of the `HIGH`-risk condition
never fires: risk is `HIGH` exactly when the score exceeds 0.7. -/
theorem c9_score_range_and_risk (t : Option Technicals) (u : Unit) (s : Sentiment)
    (m : MarketStructure) :
    31/100 ≤ finalScore t s m ∧ finalScore t s m ≤ 3/4
  ∧ (generateGodPrediction t u s m).confidence ≤ 50
  ∧ (generateGodPrediction t u s m).risk_level ≠ "LOW"
  ∧ ((generateGodPrediction t u s m).risk_level = "HIGH" ∨
      (generateGodPrediction t u s m).risk_level = "MEDIUM")
  ∧ ((generateGodPrediction t u s m).risk_level = "HIGH" ↔ 0.7 < finalScore t s m)
  ∧ ¬ finalScore t s m < 3/10 := by
  obtain ⟨hlo, hhi⟩ := finalScore_bounds t s m
  have habs : |finalScore t s m - 0.5| ≤ 1/4 := by
    rw [abs_le]
    constructor <;> norm_num <;> linarith
  refine ⟨hlo, hhi, ?_, ?_, ?_, ?_, by linarith⟩
  · show |finalScore t s m - 0.5| * 200 ≤ 50
    nlinarith [habs]
  · show (if 0.7 < finalScore t s m ∨ finalScore t s m < 0.3 then "HIGH" else "MEDIUM") ≠ "LOW"
    split_ifs <;> decide
  · show (if 0.7 < finalScore t s m ∨ finalScore t s m < 0.3 then "HIGH" else "MEDIUM") = "HIGH"
      ∨ (if 0.7 < finalScore t s m ∨ finalScore t s m < 0.3 then "HIGH" else "MEDIUM") = "MEDIUM"
    split_ifs
    · exact Or.inl rfl
    · exact Or.inr rfl
  · show (if 0.7 < finalScore t s m ∨ finalScore t s m < 0.3 then "HIGH" else "MEDIUM") = "HIGH"
      ↔ 0.7 < finalScore t s m
    split_ifs with h1
    · refine iff_of_true rfl ?_
      rcases h1 with h | h
      · exact h
      · linarith
    · exact iff_of_false (by decide) fun hc => h1 (Or.inl hc)

/-- The `rs` value of every RSI window is nonnegative. -/
theorem rsiRS_nonneg (changes : List ℚ) (period i : ℕ) : 0 ≤ rsiRS changes period i := by
  unfold rsiRS
  split_ifs with h
  · norm_num
  · apply div_nonneg
    · unfold rsiAvgGain
      split_ifs
      · refine div_nonneg (List.sum_nonneg ?_) (Nat.cast_nonneg period)
        intro c hc
        have hpos : 0 < c := by simpa using (List.mem_filter.mp hc).2
        exact hpos.le
      · exact le_refl 0
    · unfold rsiAvgLoss
      split_ifs
      · refine div_nonneg (List.sum_nonneg ?_) (Nat.cast_nonneg period)
        intro c hc
        obtain ⟨d, _, rfl⟩ := List.mem_map.mp hc
        exact abs_nonneg d
      · exact le_refl 0

/-- Every value produced by `calculateRSI` lies in `[0, 100)`: the bound
holds, and in fact the `rs = 100` substitution keeps even no-loss windows
strictly below 100. -/
theorem calculateRSI_mem_bounds (prices : List ℚ) (period : ℕ) :
    ∀ x ∈ calculateRSI prices period, 0 ≤ x ∧ x < 100 := by
  intro x hx
  rw [calculateRSI, List.mem_map] at hx
  obtain ⟨i, hi, rfl⟩ := hx
  unfold rsiBody
  have h := rsiRS_nonneg (priceChanges prices) period i
  have h1 : (0 : ℚ) < 1 + rsiRS (priceChanges prices) period i := by linarith
  constructor
  · have hle : 100 / (1 + rsiRS (priceChanges prices) period i) ≤ 100 :=
      div_le_self (by norm_num) (by linarith)
    linarith
  · have hpos : 0 < 100 / (1 + rsiRS (priceChanges prices) period i) := by positivity
    linarith

/-- The strictly increasing 16-point series exposing the no-loss window. -/
def c1Prices : List ℚ := [1, 2, 3, 4, 5, 6, 7, 8, 9, 10, 11, 12, 13, 14, 15, 16]

/-- C1: on a strictly increasing series the single RSI window has no loss
(`avgLoss = 0`), and the source's `rs = 100` substitution produces
`100 - 100 / 101 = 10000 / 101 ≈ 99.0099` — strictly below the contractual
value 100. -/
theorem c1_rsi_no_loss_eval :
    calculateRSI c1Prices 14 = [10000 / 101] ∧ (10000 / 101 : ℚ) < 100 := by
  constructor
  · norm_num [c1Prices, calculateRSI, priceChanges, rsiBody, rsiRS, rsiAvgGain, rsiAvgLoss,
      rsiGains, rsiLosses, rsiWindow, List.range'.eq_def, List.range_succ]
  · norm_num

/-- The strictly increasing 17-point series. -/
def incPrices : List ℚ := [1, 2, 3, 4, 5, 6, 7, 8, 9, 10, 11, 12, 13, 14, 15, 16, 17]

/-- The strictly decreasing 17-point series. -/
def decPrices : List ℚ := [17, 16, 15, 14, 13, 12, 11, 10, 9, 8, 7, 6, 5, 4, 3, 2, 1]

/-- C5: the latest RSI of the strictly increasing series is `10000 / 101`,
not 100 (the decreasing-series value 0 and the `[0, 100]` bound do hold,
see `calculateRSI_mem_bounds`). -/
theorem c5_rsi_extremes_eval :
    (calculateRSI incPrices 14).getLast? = some (10000 / 101)
  ∧ (calculateRSI decPrices 14).getLast? = some 0
  ∧ ¬ (10000 / 101 : ℚ) = 100 := by
  refine ⟨?_, ?_, by norm_num⟩
  · rw [show calculateRSI incPrices 14 = [10000 / 101, 10000 / 101] from by
      norm_num [incPrices, calculateRSI, priceChanges, rsiBody, rsiRS, rsiAvgGain, rsiAvgLoss,
        rsiGains, rsiLosses, rsiWindow, List.range'.eq_def, List.range_succ]]
    rfl
  · rw [show calculateRSI decPrices 14 = [0, 0] from by
      norm_num [decPrices, calculateRSI, priceChanges, rsiBody, rsiRS, rsiAvgGain, rsiAvgLoss,
        rsiGains, rsiLosses, rsiWindow, List.range'.eq_def, List.range_succ]]
    rfl

/-- The band list has one entry per SMA position. -/
theorem calculateBollingerBands_length (prices : List ℚ) (period : ℕ) (mult : ℚ) :
    (calculateBollingerBands prices period mult).length = (calculateSMA prices period).length := by
  unfold calculateBollingerBands
  rw [List.length_map, List.length_range]

/-- The SMA series has `n + 1 - period` entries. -/
theorem calculateSMA_length (prices : List ℚ) (period : ℕ) :
    (calculateSMA prices period).length = prices.length + 1 - period := by
  unfold calculateSMA
  rw [List.length_map, List.length_range]

/-- The band at a valid position, written out. -/
theorem calculateBollingerBands_getD (prices : List ℚ) (period : ℕ) (mult : ℚ) (i : ℕ)
    (hi : i < (calculateBollingerBands prices period mult).length) :
    (calculateBollingerBands prices period mult).getD i ⟨0, 0, 0⟩ =
      { upper := (smaAt prices period i : ℝ) + stdDevAt prices period i * (mult : ℝ)
        middle := (smaAt prices period i : ℝ)
        lower := (smaAt prices period i : ℝ) - stdDevAt prices period i * (mult : ℝ) } := by
  rw [calculateBollingerBands_length] at hi
  unfold calculateBollingerBands
  rw [List.getD_eq_getElem?_getD, List.getElem?_map, List.getElem?_range hi]
  rfl

/-- Lemma: `mean = sma[i]` is the window average at every valid position. -/
theorem smaAt_eq_window_mean (prices : List ℚ) (period i : ℕ)
    (hi : i < (calculateSMA prices period).length) :
    smaAt prices period i = (windowAt prices period i).sum / period := by
  rw [calculateSMA_length] at hi
  unfold smaAt calculateSMA windowAt
  rw [List.getD_eq_getElem?_getD, List.getElem?_map, List.getElem?_range hi]
  rfl

/-- A list of squared deviations sums to zero exactly when every entry equals
the centre. -/
theorem sum_sq_dev_eq_zero_iff (m : ℚ) (l : List ℚ) :
    (l.map fun p => (p - m) ^ 2).sum = 0 ↔ ∀ p ∈ l, p = m := by
  induction l with
  | nil => simp
  | cons p l ih =>
    rw [List.map_cons, List.sum_cons]
    constructor
    · intro h
      have h2 : 0 ≤ ((l.map fun q => (q - m) ^ 2).sum) := by
        apply List.sum_nonneg
        intro x hx
        obtain ⟨q, _, rfl⟩ := List.mem_map.mp hx
        exact sq_nonneg _
      have h1 : (0 : ℚ) ≤ (p - m) ^ 2 := sq_nonneg _
      have hp : (p - m) ^ 2 = 0 := by linarith
      have hl : ((l.map fun q => (q - m) ^ 2).sum) = 0 := by linarith
      intro q hq
      rcases List.mem_cons.mp hq with rfl | hq2
      · exact sub_eq_zero.mp (sq_eq_zero_iff.mp hp)
      · exact ih.mp hl q hq2
    · intro h
      have hp : p = m := h p (List.mem_cons_self p l)
      rw [ih.mpr fun q hq => h q (List.mem_cons.mpr (Or.inr hq)), hp, sub_self]
      norm_num

/-- The window variance is nonnegative. -/
theorem varianceAt_nonneg (prices : List ℚ) (period i : ℕ) :
    0 ≤ varianceAt prices period i := by
  unfold varianceAt
  refine div_nonneg (List.sum_nonneg ?_) (Nat.cast_nonneg period)
  intro x hx
  obtain ⟨q, _, rfl⟩ := List.mem_map.mp hx
  exact sq_nonneg _

/-- The window variance vanishes exactly when the window is constantly equal
to its mean. -/
theorem varianceAt_eq_zero_iff (prices : List ℚ) (period i : ℕ) (hp : 0 < period) :
    varianceAt prices period i = 0 ↔
      ∀ p ∈ windowAt prices period i, p = smaAt prices period i := by
  unfold varianceAt
  rw [div_eq_zero_iff]
  have hper : ((period : ℚ) ≠ 0) := Nat.cast_ne_zero.mpr hp.ne'
  constructor
  · rintro (h | h)
    · exact (sum_sq_dev_eq_zero_iff _ _).mp h
    · exact absurd h hper
  · intro h
    exact Or.inl ((sum_sq_dev_eq_zero_iff _ _).mpr h)

/-- The window standard deviation vanishes exactly when the variance does. -/
theorem stdDevAt_eq_zero_iff (prices : List ℚ) (period i : ℕ) :
    stdDevAt prices period i = 0 ↔ varianceAt prices period i = 0 := by
  unfold stdDevAt
  rw [Real.sqrt_eq_zero']
  constructor
  · intro h
    have h2 : (0 : ℝ) ≤ (varianceAt prices period i : ℝ) := by
      exact_mod_cast varianceAt_nonneg prices period i
    have h3 : ((varianceAt prices period i : ℚ) : ℝ) = 0 := le_antisymm h h2
    exact_mod_cast h3
  · intro h
    rw [h]
    norm_num

/-- A window equal to its mean everywhere is the same thing as a constant
window (at a valid position with a positive period). -/
theorem window_const_iff (prices : List ℚ) (period i : ℕ) (hp : 0 < period)
    (hi : i < (calculateSMA prices period).length) :
    (∀ p ∈ windowAt prices period i, p = smaAt prices period i) ↔
      ∃ c, ∀ p ∈ windowAt prices period i, p = c := by
  constructor
  · exact fun h => ⟨smaAt prices period i, h⟩
  · rintro ⟨c, hc⟩
    have hlen : (windowAt prices period i).length = period := by
      unfold windowAt
      rw [List.length_take, List.length_drop]
      rw [calculateSMA_length] at hi
      omega
    have hsum : (windowAt prices period i).sum = period • c := by
      rw [List.sum_eq_card_nsmul (windowAt prices period i) c hc, hlen]
    have hm : smaAt prices period i = c := by
      rw [smaAt_eq_window_mean prices period i hi, hsum, nsmul_eq_mul, mul_comm,
        mul_div_assoc, div_self (Nat.cast_ne_zero.mpr hp.ne'), mul_one]
    intro p hp2
    rw [hm]
    exact hc p hp2

/-- C3: at every output position of the Bollinger computation (with a
positive period and positive multiplier, the source uses 20 and 2),
`lower ≤ middle ≤ upper`; all three coincide exactly when the window's
standard deviation is zero, which happens exactly for a constant-price
window. -/
theorem c3_bollinger_band_order (prices : List ℚ) (period : ℕ) (mult : ℚ)
    (hp : 0 < period) (hm : 0 < mult) (i : ℕ)
    (hi : i < (calculateBollingerBands prices period mult).length) :
    ((calculateBollingerBands prices period mult).getD i ⟨0, 0, 0⟩).lower ≤
      ((calculateBollingerBands prices period mult).getD i ⟨0, 0, 0⟩).middle
  ∧ ((calculateBollingerBands prices period mult).getD i ⟨0, 0, 0⟩).middle ≤
      ((calculateBollingerBands prices period mult).getD i ⟨0, 0, 0⟩).upper
  ∧ ((((calculateBollingerBands prices period mult).getD i ⟨0, 0, 0⟩).lower =
        ((calculateBollingerBands prices period mult).getD i ⟨0, 0, 0⟩).middle ∧
      ((calculateBollingerBands prices period mult).getD i ⟨0, 0, 0⟩).middle =
        ((calculateBollingerBands prices period mult).getD i ⟨0, 0, 0⟩).upper) ↔
      stdDevAt prices period i = 0)
  ∧ (stdDevAt prices period i = 0 ↔ ∃ c, ∀ p ∈ windowAt prices period i, p = c) := by
  have hib : i < (calculateSMA prices period).length := by
    rwa [calculateBollingerBands_length] at hi
  rw [calculateBollingerBands_getD prices period mult i hi]
  dsimp only
  have hsd : 0 ≤ stdDevAt prices period i := Real.sqrt_nonneg _
  have hmr : (0 : ℝ) < ((mult : ℚ) : ℝ) := by exact_mod_cast hm
  have hprod : 0 ≤ stdDevAt prices period i * ((mult : ℚ) : ℝ) := mul_nonneg hsd hmr.le
  refine ⟨by linarith, by linarith, ?_, ?_⟩
  · constructor
    · rintro ⟨h1, -⟩
      have hz : stdDevAt prices period i * ((mult : ℚ) : ℝ) = 0 := by linarith
      rcases mul_eq_zero.mp hz with h | h
      · exact h
      · exact absurd h hmr.ne'
    · intro h
      rw [h]
      norm_num
  · rw [stdDevAt_eq_zero_iff, varianceAt_eq_zero_iff prices period i hp,
      window_const_iff prices period i hp hib]

/-- Witness for C3 on the constant two-point window. -/
theorem c3_bollinger_band_order_witness :
    ((calculateBollingerBands [5, 5] 2 2).getD 0 ⟨0, 0, 0⟩).lower ≤
      ((calculateBollingerBands [5, 5] 2 2).getD 0 ⟨0, 0, 0⟩).middle
  ∧ ((calculateBollingerBands [5, 5] 2 2).getD 0 ⟨0, 0, 0⟩).middle ≤
      ((calculateBollingerBands [5, 5] 2 2).getD 0 ⟨0, 0, 0⟩).upper
  ∧ ((((calculateBollingerBands [5, 5] 2 2).getD 0 ⟨0, 0, 0⟩).lower =
        ((calculateBollingerBands [5, 5] 2 2).getD 0 ⟨0, 0, 0⟩).middle ∧
      ((calculateBollingerBands [5, 5] 2 2).getD 0 ⟨0, 0, 0⟩).middle =
        ((calculateBollingerBands [5, 5] 2 2).getD 0 ⟨0, 0, 0⟩).upper) ↔
      stdDevAt [5, 5] 2 0 = 0)
  ∧ (stdDevAt [5, 5] 2 0 = 0 ↔ ∃ c, ∀ p ∈ windowAt [5, 5] 2 0, p = c) :=
  c3_bollinger_band_order [5, 5] 2 2 (by norm_num) (by norm_num) 0
    (by rw [calculateBollingerBands_length, calculateSMA_length]; norm_num)

/-- C10: at every output position, the bands are exactly symmetric about the
middle band, and the half-width equals `multiplier * stdDev`. -/
theorem c10_band_symmetry (prices : List ℚ) (period : ℕ) (mult : ℚ) (i : ℕ)
    (hi : i < (calculateBollingerBands prices period mult).length) :
    ((calculateBollingerBands prices period mult).getD i ⟨0, 0, 0⟩).upper -
      ((calculateBollingerBands prices period mult).getD i ⟨0, 0, 0⟩).middle =
    ((calculateBollingerBands prices period mult).getD i ⟨0, 0, 0⟩).middle -
      ((calculateBollingerBands prices period mult).getD i ⟨0, 0, 0⟩).lower
  ∧ ((calculateBollingerBands prices period mult).getD i ⟨0, 0, 0⟩).upper -
      ((calculateBollingerBands prices period mult).getD i ⟨0, 0, 0⟩).middle =
    ((mult : ℚ) : ℝ) * stdDevAt prices period i := by
  rw [calculateBollingerBands_getD prices period mult i hi]
  dsimp only
  constructor <;> ring

/-- Witness for C10 on a two-point window with nonzero spread. -/
theorem c10_band_symmetry_witness :
    ((calculateBollingerBands [3, 7] 2 2).getD 0 ⟨0, 0, 0⟩).upper -
      ((calculateBollingerBands [3, 7] 2 2).getD 0 ⟨0, 0, 0⟩).middle =
    ((calculateBollingerBands [3, 7] 2 2).getD 0 ⟨0, 0, 0⟩).middle -
      ((calculateBollingerBands [3, 7] 2 2).getD 0 ⟨0, 0, 0⟩).lower
  ∧ ((calculateBollingerBands [3, 7] 2 2).getD 0 ⟨0, 0, 0⟩).upper -
      ((calculateBollingerBands [3, 7] 2 2).getD 0 ⟨0, 0, 0⟩).middle =
    (((2 : ℚ) : ℝ)) * stdDevAt [3, 7] 2 0 :=
  c10_band_symmetry [3, 7] 2 2 0
    (by rw [calculateBollingerBands_length, calculateSMA_length]; norm_num)

/-- C6: the scorer has no weight-validation path.  The weights are the
hardcoded constant record `(0.4, 0.3, 0.2, 0.1)` — summing to 1 exactly —
there is no weight parameter to misconfigure, and `generateGodPrediction`
is a total function that unconditionally returns a prediction (evaluated
here at a concrete input); no `InvalidInput` failure exists. -/
theorem c6_weights_hardcoded_scorer_total :
    cgWeights.technical + cgWeights.fundamental + cgWeights.sentiment +
      cgWeights.market_structure = 1
  ∧ generateGodPrediction none () ⟨1/2⟩ ⟨0, "medium"⟩ =
      ⟨"NEUTRAL", 2, "24h-7d", "MEDIUM"⟩ := by
  constructor
  · norm_num [cgWeights]
  · simp [generateGodPrediction, finalScore, technicalScore, fundamentalScore,
      sentimentScore, structureScore, cgWeights]
    norm_num
    rw [abs_of_pos (by norm_num : (0:ℚ) < 1/100)]
    norm_num

/-- The RSI series has `n - 1 - period` entries. -/
theorem calculateRSI_length (prices : List ℚ) (period : ℕ) :
    (calculateRSI prices period).length = prices.length - 1 - period := by
  unfold calculateRSI priceChanges
  rw [List.length_map, List.length_range', List.length_map, List.length_range]

/-- A 19-sample `[timestamp, price]` series. -/
def p19 : List (ℚ × ℚ) := (List.range 19).map fun i => (0, (i : ℚ))

/-- A 20-sample `[timestamp, price]` series. -/
def p20 : List (ℚ × ℚ) := (List.range 20).map fun i => (0, (i : ℚ))

/-- C7 counterexample: on a 19-sample series `calculateSimpleTechnicals`
returns `null` — the whole technicals report is absent, although e.g. the
RSI series (four values) was computable from the same data.  The rest of the
report is not produced. -/
theorem c7_counterexample_short_series :
    calculateSimpleTechnicals p19 = none
  ∧ p19.length = 19
  ∧ (calculateRSI (p19.map Prod.snd) 14).length = 4 := by
  refine ⟨?_, by decide, ?_⟩
  · simp only [calculateSimpleTechnicals]
    rw [if_pos (show (p19.map Prod.snd).length < 20 by decide)]
  · rw [calculateRSI_length, List.length_map]
    decide

/-- C7 (amended): with fewer than 20 samples `calculateSimpleTechnicals`
returns `null` — no crash, but the entire technicals report is absent rather
than only the offending indicator's field; with `20 ≤ n < 50` samples only
the 50-period SMA field is `undefined` (`none`) while the other indicator
fields are produced. -/
theorem c7_insufficient_data_behaviour (prices : List (ℚ × ℚ)) :
    (prices.length < 20 → calculateSimpleTechnicals prices = none)
  ∧ (20 ≤ prices.length → prices.length < 50 →
      ∃ t, calculateSimpleTechnicals prices = some t
        ∧ t.sma_50 = none
        ∧ t.sma_20.isSome = true
        ∧ t.rsi.isSome = true
        ∧ t.bollinger_bands.isSome = true) := by
  constructor
  · intro h
    simp only [calculateSimpleTechnicals]
    rw [if_pos (show (prices.map Prod.snd).length < 20 by simpa using h)]
  · intro h1 h2
    simp only [calculateSimpleTechnicals]
    rw [if_neg (show ¬ (prices.map Prod.snd).length < 20 by
      simp only [List.length_map]; omega)]
    refine ⟨_, rfl, ?_, ?_, ?_, ?_⟩
    · show (calculateSMA (prices.map Prod.snd) 50).getLast? = none
      have hnil : calculateSMA (prices.map Prod.snd) 50 = [] := by
        rw [← List.length_eq_zero, calculateSMA_length, List.length_map]
        omega
      rw [hnil]
      rfl
    · show (calculateSMA (prices.map Prod.snd) 20).getLast?.isSome = true
      rw [List.getLast?_isSome, ← List.length_pos, calculateSMA_length, List.length_map]
      omega
    · show (calculateRSI (prices.map Prod.snd) 14).getLast?.isSome = true
      rw [List.getLast?_isSome, ← List.length_pos, calculateRSI_length, List.length_map]
      omega
    · show (calculateBollingerBands (prices.map Prod.snd) 20 2).getLast?.isSome = true
      rw [List.getLast?_isSome, ← List.length_pos, calculateBollingerBands_length,
        calculateSMA_length, List.length_map]
      omega

/-- Witness for the amended C7, exercising both branches at 19- and
20-sample series. -/
theorem c7_insufficient_data_behaviour_witness :
    calculateSimpleTechnicals p19 = none
  ∧ ∃ t, calculateSimpleTechnicals p20 = some t
      ∧ t.sma_50 = none
      ∧ t.sma_20.isSome = true
      ∧ t.rsi.isSome = true
      ∧ t.bollinger_bands.isSome = true :=
  ⟨(c7_insufficient_data_behaviour p19).1 (by decide),
   (c7_insufficient_data_behaviour p20).2 (by decide) (by decide)⟩
